import Mathlib

/-!
Verification of the Regulatory Document Explorer (src/src/App.jsx).

The application is a single React component.  We embed its pure logic
shallowly:

* `Doc` mirrors the document objects returned by the Federal Register API
  as the component consumes them (`document_number`, `title`,
  `publication_date`, `document_type`, `agencies`).  `publication_date`
  is an `Option String`: `none` models a JavaScript object on which the
  field is absent (`undefined`), `some ""` models an empty string —
  the two behave differently under JavaScript's relational operators,
  which the filter relies on.  `document_type` is a plain `String` with
  `""` standing for an absent/empty value: every use in the component
  (`!==` against a non-empty filter string, `filter(Boolean)`) treats
  `undefined` and `""` identically.
* JavaScript string relational operators (`<`, `>`) on two strings are
  lexicographic; applied to `undefined` and a string they return
  `false` (NaN comparison).  `jsDateLt`/`jsDateGt` embed exactly the
  comparisons `pub < startDate` / `pub > endDate` from the code.
* `passesFilters`/`filteredDocs` embed the `filtered` memo,
  `agencyOptions`/`typeOptions` the two option memos (a JavaScript
  `Set` keeps first occurrences in insertion order, embedded by
  `dedupFirst`; `Array.prototype.sort` on distinct strings is embedded
  by `List.insertionSort (· ≤ ·)`).
* `AppState` and `fetchDocs` embed the component state touched by the
  fetch logic; a fetch outcome (network error, HTTP response with an
  optional `results` array) is passed in explicitly.
* `buildUrlParams` embeds `buildUrl`'s query-parameter construction.
* `toggleBookmark` embeds the bookmark toggle, and
  `loadBookmarks`/`saveBookmarks` embed the `useLocalStorage` hook at
  the JSON level: a stored string is represented by the outcome of
  `JSON.parse` on it (`missing` for `null`/`""` which are falsy,
  `unparseable` for a parse error, `parsed v` for a successful parse,
  where `v` is either an array of strings or some other JSON value).
-/

namespace RegExplorer

/-- An entry of a document's `agencies` array: `{name: string}`. -/
structure Agency where
  name : String
deriving DecidableEq, Repr

/-- A document as consumed by the component. -/
structure Doc where
  document_number : String
  title : String
  publication_date : Option String
  document_type : String
  agencies : List Agency
deriving DecidableEq, Repr

/-- Lexicographic strict comparison of character lists, the order
JavaScript uses for `<` and `>` on two strings. -/
def lexLtChars : List Char → List Char → Bool
  | _, [] => false
  | [], _ :: _ => true
  | a :: as, b :: bs =>
      if a < b then true
      else if b < a then false
      else lexLtChars as bs

/-- JavaScript string `a < b`. -/
def jsStrLt (a b : String) : Bool :=
  lexLtChars a.data b.data

/-- JavaScript `pub < s` where `pub` is the possibly-absent
`publication_date` and `s` a string: `undefined < s` is `false`,
string-vs-string is lexicographic. -/
def jsDateLt (pub : Option String) (s : String) : Bool :=
  match pub with
  | none => false
  | some p => jsStrLt p s

/-- JavaScript `pub > s`: `undefined > s` is `false`,
string-vs-string is lexicographic. -/
def jsDateGt (pub : Option String) (s : String) : Bool :=
  match pub with
  | none => false
  | some p => jsStrLt s p

/-- The four client-side filter fields; `""` means "no filter"
(JavaScript truthiness of the guarding `if`s). -/
structure Filters where
  agency : String
  docType : String
  startDate : String
  endDate : String
deriving DecidableEq, Repr

/-- The predicate of the `filtered` memo (App.jsx lines 94–109),
with each early `return false` mirrored in order. -/
def passesFilters (f : Filters) (d : Doc) : Bool :=
  if f.agency != "" && !((d.agencies.map Agency.name).contains f.agency) then false
  else if f.docType != "" && d.document_type != f.docType then false
  else if f.startDate != "" && jsDateLt d.publication_date f.startDate then false
  else if f.endDate != "" && jsDateGt d.publication_date f.endDate then false
  else true

/-- The `filtered` memo: `docs.filter(...)`. -/
def filteredDocs (f : Filters) (docs : List Doc) : List Doc :=
  docs.filter (passesFilters f)

/-- Insertion-order deduplication keeping first occurrences, as a
JavaScript `Set` fed by successive `add` calls behaves when converted
back with `Array.from`. -/
def dedupFirst : List String → List String
  | [] => []
  | x :: xs => x :: dedupFirst (xs.filter (fun y => y != x))
termination_by l => l.length
decreasing_by
  simp only [List.length_cons]
  exact Nat.lt_succ_of_le (List.length_filter_le _ _)

/-- The `agencyOptions` memo (App.jsx lines 112–116): all agency names
of all loaded documents, deduplicated, then sorted. -/
def agencyOptions (docs : List Doc) : List String :=
  List.insertionSort (· ≤ ·)
    (dedupFirst (docs.flatMap (fun d => d.agencies.map Agency.name)))

/-- The `typeOptions` memo (App.jsx lines 118–121): the document types,
with falsy (empty) values dropped, deduplicated, then sorted. -/
def typeOptions (docs : List Doc) : List String :=
  List.insertionSort (· ≤ ·)
    (dedupFirst ((docs.map Doc.document_type).filter (fun t => t != "")))

/-- The component state touched by the fetch logic and the keyword
field `q`. -/
structure AppState where
  docs : List Doc
  page : Nat
  hasMore : Bool
  loading : Bool
  error : String
  selected : Option Doc
  q : String
deriving DecidableEq, Repr

/-- `String.prototype.trim`: strip leading and trailing whitespace. -/
def jsTrim (s : String) : String :=
  ⟨((s.data.dropWhile Char.isWhitespace).reverse.dropWhile Char.isWhitespace).reverse⟩

/-- Query parameters produced by `buildUrl` (App.jsx lines 57–65):
`per_page`, `order`, `page`, and `conditions[term]` only when the
trimmed keyword is non-empty. -/
def buildUrlParams (q : String) (nextPage : Nat) : List (String × String) :=
  [("per_page", "20"), ("order", "newest"), ("page", toString nextPage)]
    ++ (if jsTrim q != "" then [("conditions[term]", jsTrim q)] else [])

/-- An HTTP response as `fetchDocs` inspects it, restricted to bodies
whose `results` field is a well-formed array of documents or absent
(`none`, so that `data?.results ?? []` defaults) — the fragment the
accumulator operations of §4.2 are specified over.  The general case,
where a parsed body may carry a `results` value of any JSON shape, is
`HttpResponseJson` below. -/
structure HttpResponse where
  ok : Bool
  status : Nat
  results : Option (List Doc)
deriving DecidableEq, Repr

/-- The outcome of `await fetch(...)`: either the fetch itself failed
(with the thrown error's message) or a response arrived. -/
inductive FetchOutcome where
  | networkError (msg : String)
  | response (res : HttpResponse)
deriving DecidableEq, Repr

/-- The `results` field of a parsed success body, at JSON fidelity:
`nullish` when `data?.results` is `undefined` or `null` (absent field,
`null` value, or a nullish `data`), so that `?? []` defaults; an array
of documents; or a present non-nullish value of any other JSON shape —
for example the body `{"results": 5}` — which `?? []` does NOT
replace. -/
inductive ResultsField where
  | nullish
  | arr (items : List Doc)
  | nonArray
deriving DecidableEq, Repr

/-- The value held by `items` after `data?.results ?? []` (App.jsx
line 75): an array, or the non-array `results` value adopted
verbatim. -/
inductive ItemsValue where
  | arr (items : List Doc)
  | nonArray
deriving DecidableEq, Repr

/-- `data?.results ?? []`: defaults to the empty array exactly on a
nullish `results`; any other value passes through unchanged. -/
def extractItems : ResultsField → ItemsValue
  | ResultsField.nullish => ItemsValue.arr []
  | ResultsField.arr xs => ItemsValue.arr xs
  | ResultsField.nonArray => ItemsValue.nonArray

/-- An HTTP response with its parsed body kept at JSON fidelity. -/
structure HttpResponseJson where
  ok : Bool
  status : Nat
  results : ResultsField
deriving DecidableEq, Repr

/-- The result-extraction part of the Fetcher (App.jsx lines 72–76) at
JSON fidelity: a non-ok status throws `Request failed: <status>`
(carrying the status code, here the error payload); an ok status
yields `data?.results ?? []`, whatever shape that value has. -/
def fetchResultJson (res : HttpResponseJson) : Except Nat ItemsValue :=
  if res.ok then Except.ok (extractItems res.results) else Except.error res.status

/-- `fetchDocs` (App.jsx lines 67–85) as a state transformer over the
explicit fetch outcome.  `reset = true` is reset-and-load,
`reset = false` is load-next-page. -/
def fetchDocs (reset : Bool) (outcome : FetchOutcome) (s : AppState) : AppState :=
  let s1 := { s with loading := true, error := "" }
  let nextPage := if reset then 1 else s1.page + 1
  match outcome with
  | FetchOutcome.networkError msg =>
      { s1 with
        error := if msg = "" then "Unknown error" else msg,
        loading := false }
  | FetchOutcome.response res =>
      if res.ok then
        let items := res.results.getD []
        let s2 := { s1 with
          hasMore := !items.isEmpty,
          page := nextPage,
          docs := if reset then items else s1.docs ++ items }
        let s3 := if reset then { s2 with selected := none } else s2
        { s3 with loading := false }
      else
        { s1 with
          error := "Request failed: " ++ toString res.status,
          loading := false }

/-- `toggleBookmark` (App.jsx lines 49–54): remove every occurrence if
present, append otherwise. -/
def toggleBookmark (docNumber : String) (prev : List String) : List String :=
  if prev.contains docNumber then prev.filter (fun n => n != docNumber)
  else prev ++ [docNumber]

/-- JSON values as the bookmark loader distinguishes them: an array of
strings, or any other valid JSON value. -/
inductive JsonValue where
  | jarr (items : List String)
  | jother
deriving DecidableEq, Repr

/-- A stored `localStorage` string represented by how
`raw ? JSON.parse(raw) : initialValue` treats it: `missing` for a
`null` or `""` read (falsy), `unparseable` for a string on which
`JSON.parse` throws, `parsed v` for a string parsing to `v`. -/
inductive StoredRaw where
  | missing
  | unparseable
  | parsed (v : JsonValue)
deriving DecidableEq, Repr

/-- The initializer of `useLocalStorage("regx_bookmarks", [])`
(App.jsx lines 15–23): falsy or throwing reads yield the initial value
`[]`; a successful parse is adopted verbatim, whatever its shape. -/
def loadBookmarks : StoredRaw → JsonValue
  | StoredRaw.missing => JsonValue.jarr []
  | StoredRaw.unparseable => JsonValue.jarr []
  | StoredRaw.parsed v => v

/-- The persistence effect (App.jsx line 25): `JSON.stringify` of a
string array stores a string that parses back to the same array. -/
def saveBookmarks (xs : List String) : StoredRaw :=
  StoredRaw.parsed (JsonValue.jarr xs)

/-- `setQ`: the keyword input's change handler. -/
def setQ (k : String) (s : AppState) : AppState := { s with q := k }

/-- The query parameters of the request that `fetchDocs(false)` issues
from state `s`: `buildUrl(page + 1)` reads the current `q`. -/
def loadNextPageParams (s : AppState) : List (String × String) :=
  buildUrlParams s.q (s.page + 1)

/-- `fetchDocs(false)` with the network abstracted as a function from
request parameters to the returned `results` array. -/
def loadNextPage (server : List (String × String) → List Doc)
    (s : AppState) : AppState :=
  fetchDocs false
    (FetchOutcome.response ⟨true, 200, some (server (loadNextPageParams s))⟩) s

end RegExplorer

namespace RegExplorer

/-! ## Helper lemmas -/

/-- Characterization of `passesFilters`: the document passes iff each of
the four guards of the `filtered` memo is inactive or satisfied. -/
lemma passesFilters_true_iff (f : Filters) (d : Doc) :
    passesFilters f d = true ↔
      (f.agency = "" ∨ (d.agencies.map Agency.name).contains f.agency = true) ∧
      (f.docType = "" ∨ d.document_type = f.docType) ∧
      (f.startDate = "" ∨ jsDateLt d.publication_date f.startDate = false) ∧
      (f.endDate = "" ∨ jsDateGt d.publication_date f.endDate = false) := by
  unfold passesFilters
  by_cases h1 : f.agency = "" <;> by_cases h2 : f.docType = "" <;>
    by_cases h3 : f.startDate = "" <;> by_cases h4 : f.endDate = "" <;>
      cases hb1 : (d.agencies.map Agency.name).contains f.agency <;>
        cases hb2 : jsDateLt d.publication_date f.startDate <;>
          cases hb3 : jsDateGt d.publication_date f.endDate <;>
            simp_all [bne_iff_ne]

lemma mem_dedupFirst (l : List String) (a : String) : a ∈ dedupFirst l ↔ a ∈ l := by
  induction l using dedupFirst.induct with
  | case1 => simp [dedupFirst]
  | case2 x xs ih =>
      simp only [dedupFirst, List.mem_cons, ih, List.mem_filter, bne_iff_ne]
      by_cases hx : a = x <;> simp [hx]

lemma nodup_dedupFirst (l : List String) : (dedupFirst l).Nodup := by
  induction l using dedupFirst.induct with
  | case1 => simp [dedupFirst]
  | case2 x xs ih =>
      simp only [dedupFirst, List.nodup_cons]
      refine ⟨fun hx => ?_, ih⟩
      rw [mem_dedupFirst] at hx
      simp [List.mem_filter] at hx

/-- `lexLtChars` agrees with the lexicographic order on `List Char`. -/
lemma lexLtChars_iff : ∀ as bs : List Char, lexLtChars as bs = true ↔ List.Lex (· < ·) as bs := by
  intro as
  induction as with
  | nil =>
      intro bs
      cases bs with
      | nil =>
          simp only [lexLtChars, Bool.false_eq_true, false_iff]
          exact List.Lex.not_nil_right _ _
      | cons b bs =>
          simp only [lexLtChars, true_iff]
          exact List.Lex.nil
  | cons a as ih =>
      intro bs
      cases bs with
      | nil =>
          simp only [lexLtChars, Bool.false_eq_true, false_iff]
          exact List.Lex.not_nil_right _ _
      | cons b bs =>
          simp only [lexLtChars]
          by_cases hab : a < b
          · simp only [hab, if_true, true_iff]
            exact List.Lex.rel hab
          · by_cases hba : b < a
            · simp only [hab, hba, if_true, if_false, Bool.false_eq_true, false_iff]
              intro h
              cases h with
              | cons h => exact absurd rfl (ne_of_gt hba)
              | rel h => exact absurd h hab
            · have heq : a = b := le_antisymm (not_lt.mp hba) (not_lt.mp hab)
              subst heq
              simp only [hab, hba, if_false]
              exact (ih bs).trans (List.Lex.cons_iff (r := (· < ·))).symm

/-- `jsStrLt` agrees with the lexicographic order on `String`. -/
lemma jsStrLt_iff (a b : String) : jsStrLt a b = true ↔ a < b := by
  rw [String.lt_iff_toList_lt]
  exact lexLtChars_iff a.data b.data

/-- `jsStrLt a b = false` means `b ≤ a`. -/
lemma jsStrLt_false_iff (a b : String) : jsStrLt a b = false ↔ b ≤ a := by
  rw [← not_lt, ← jsStrLt_iff]
  cases jsStrLt a b <;> simp

/-- The empty string is strictly below any non-empty string. -/
lemma jsStrLt_empty_left (s : String) (h : s ≠ "") : jsStrLt "" s = true := by
  unfold jsStrLt
  cases hs : s.data with
  | nil => exact absurd (String.toList_inj.mp hs) h
  | cons c cs => rfl

/-- No string is strictly below the empty string. -/
lemma jsStrLt_empty_right (s : String) : jsStrLt s "" = false := by
  unfold jsStrLt
  cases s.data <;> rfl

/-! ## C1: the visible subset -/

/-- The visible-subset predicate exactly as the specification words it
(§4.3), for comparison with the implementation predicate
`passesFilters`: each active date bound demands that the document have
a publication date standing in the stated lexicographic relation. -/
def specPasses (f : Filters) (d : Doc) : Prop :=
  (f.agency = "" ∨ f.agency ∈ d.agencies.map Agency.name) ∧
  (f.docType = "" ∨ d.document_type = f.docType) ∧
  (f.startDate = "" ∨ ∃ p, d.publication_date = some p ∧ f.startDate ≤ p) ∧
  (f.endDate = "" ∨ ∃ p, d.publication_date = some p ∧ p ≤ f.endDate)

/-- Claim C1, counterexample: with an active start-date filter, a
document whose publication date is absent is kept by the Filter Engine
(`undefined < start` is `false` in JavaScript), yet it does not satisfy
the claimed start-date predicate, which requires a publication date
lexicographically at or above the start date. -/
theorem filtered_claim_counterexample :
    filteredDocs ⟨"", "", "2024-01-01", ""⟩ [⟨"d1", "t", none, "Rule", []⟩]
        = [⟨"d1", "t", none, "Rule", []⟩] ∧
    ¬ specPasses ⟨"", "", "2024-01-01", ""⟩ ⟨"d1", "t", none, "Rule", []⟩ := by
  refine ⟨by decide, fun h => ?_⟩
  rcases h.2.2.1 with h1 | ⟨p, hp, _⟩
  · exact absurd h1 (by decide)
  · cases hp

/-- Claim C1 (amended): the visible subset is a subset of the loaded
list, and every visible document satisfies the active agency and type
predicates exactly as claimed; for the date predicates, every visible
document whose publication date is present satisfies each active bound
lexicographically — a document with an absent publication date passes
the date bounds vacuously. -/
theorem filtered_sound (f : Filters) (docs : List Doc) (d : Doc)
    (hd : d ∈ filteredDocs f docs) :
    d ∈ docs ∧
    (f.agency = "" ∨ f.agency ∈ d.agencies.map Agency.name) ∧
    (f.docType = "" ∨ d.document_type = f.docType) ∧
    (f.startDate = "" ∨ ∀ p, d.publication_date = some p → f.startDate ≤ p) ∧
    (f.endDate = "" ∨ ∀ p, d.publication_date = some p → p ≤ f.endDate) := by
  unfold filteredDocs at hd
  obtain ⟨hmem, hpass⟩ := List.mem_filter.mp hd
  rw [passesFilters_true_iff] at hpass
  obtain ⟨h1, h2, h3, h4⟩ := hpass
  refine ⟨hmem, ?_, h2, ?_, ?_⟩
  · rcases h1 with h | h
    · exact Or.inl h
    · exact Or.inr (by simpa using h)
  · rcases h3 with h | h
    · exact Or.inl h
    · refine Or.inr fun p hp => ?_
      rw [hp] at h
      simp only [jsDateLt] at h
      exact (jsStrLt_false_iff _ _).mp h
  · rcases h4 with h | h
    · exact Or.inl h
    · refine Or.inr fun p hp => ?_
      rw [hp] at h
      simp only [jsDateGt] at h
      exact (jsStrLt_false_iff _ _).mp h

/-- Concrete instance of `filtered_sound`: a Rule of 2024-03-15 by the
EPA, visible under all four filters active. -/
theorem filtered_sound_witness :
    (⟨"w1", "t", some "2024-03-15", "Rule", [⟨"EPA"⟩]⟩ : Doc)
        ∈ [(⟨"w1", "t", some "2024-03-15", "Rule", [⟨"EPA"⟩]⟩ : Doc)] ∧
    (("EPA" : String) = "" ∨
      ("EPA" : String) ∈ ([⟨"EPA"⟩] : List Agency).map Agency.name) ∧
    (("Rule" : String) = "" ∨ ("Rule" : String) = "Rule") ∧
    (("2024-01-01" : String) = "" ∨
      ∀ p, (some "2024-03-15" : Option String) = some p → ("2024-01-01" : String) ≤ p) ∧
    (("2024-12-31" : String) = "" ∨
      ∀ p, (some "2024-03-15" : Option String) = some p → p ≤ ("2024-12-31" : String)) :=
  filtered_sound ⟨"EPA", "Rule", "2024-01-01", "2024-12-31"⟩
    [⟨"w1", "t", some "2024-03-15", "Rule", [⟨"EPA"⟩]⟩]
    ⟨"w1", "t", some "2024-03-15", "Rule", [⟨"EPA"⟩]⟩ (by decide)

end RegExplorer

namespace RegExplorer

/-! ## C2: documents with a missing publication date -/

/-- Claim C2, counterexample: a document with an absent publication
date is NOT excluded by an active end-date bound — the Filter Engine
keeps it, because JavaScript `undefined > endDate` is `false`. -/
theorem missing_date_claim_counterexample :
    (⟨"d2", "t", none, "", []⟩ : Doc).publication_date = none ∧
    (⟨"", "", "", "2024-12-31"⟩ : Filters).endDate ≠ "" ∧
    filteredDocs ⟨"", "", "", "2024-12-31"⟩ [⟨"d2", "t", none, "", []⟩]
        = [⟨"d2", "t", none, "", []⟩] :=
  ⟨rfl, by decide, by decide⟩

/-- Claim C2 (amended): with the agency and type filters inactive, a
document with an absent publication date passes the filter whatever
date bounds are active; a document with an empty-string publication
date fails an active start-date bound, but passes whenever the
start-date bound is inactive, whatever end-date bound is active. -/
theorem missing_date_behavior (f : Filters) (d : Doc)
    (hag : f.agency = "") (hty : f.docType = "") :
    (d.publication_date = none → passesFilters f d = true) ∧
    (d.publication_date = some "" → f.startDate ≠ "" → passesFilters f d = false) ∧
    (d.publication_date = some "" → f.startDate = "" → passesFilters f d = true) := by
  refine ⟨fun hp => ?_, fun hp hs => ?_, fun hp hs => ?_⟩
  · simp [passesFilters, hag, hty, hp, jsDateLt, jsDateGt]
  · simp [passesFilters, hag, hty, hp, jsDateLt, hs, jsStrLt_empty_left _ hs]
  · simp [passesFilters, hag, hty, hp, hs, jsDateLt, jsDateGt, jsStrLt_empty_right]

/-- Concrete instance of `missing_date_behavior`: a document without a
publication date passes a filter with both date bounds active. -/
theorem missing_date_behavior_witness :
    passesFilters ⟨"", "", "2024-06-01", "2024-12-31"⟩ ⟨"w2", "t", none, "", []⟩ = true :=
  (missing_date_behavior ⟨"", "", "2024-06-01", "2024-12-31"⟩
    ⟨"w2", "t", none, "", []⟩ rfl rfl).1 rfl

/-! ## C3 and C4: the fetch state machine -/

/-- Claim C3: on a successful response, reset-and-load replaces the
list with the returned page, sets the page counter to 1 and clears the
selection; load-next-page appends the returned page verbatim (no
deduplication) and advances the page counter to `page + 1`; both set
the "more available" flag to `true` exactly when the page was
non-empty. -/
theorem fetchDocs_success (s : AppState) (res : HttpResponse) (h : res.ok = true) :
    (fetchDocs true (FetchOutcome.response res) s).docs = res.results.getD [] ∧
    (fetchDocs true (FetchOutcome.response res) s).page = 1 ∧
    (fetchDocs true (FetchOutcome.response res) s).selected = none ∧
    ((fetchDocs true (FetchOutcome.response res) s).hasMore = true ↔
      res.results.getD [] ≠ []) ∧
    (fetchDocs false (FetchOutcome.response res) s).docs = s.docs ++ res.results.getD [] ∧
    (fetchDocs false (FetchOutcome.response res) s).page = s.page + 1 ∧
    ((fetchDocs false (FetchOutcome.response res) s).hasMore = true ↔
      res.results.getD [] ≠ []) := by
  simp [fetchDocs, h, List.isEmpty_iff]

/-- Documents and states used to instantiate the fetch theorems. -/
def wDocA : Doc := ⟨"A1", "a", some "2024-01-02", "Rule", []⟩

def wDocB : Doc := ⟨"B1", "b", some "2024-01-03", "Notice", []⟩

def wState : AppState := ⟨[wDocA], 3, false, false, "", none, "kw"⟩

def wRes : HttpResponse := ⟨true, 200, some [wDocB]⟩

/-- Concrete instance of `fetchDocs_success`. -/
theorem fetchDocs_success_witness :
    (fetchDocs true (FetchOutcome.response wRes) wState).docs = [wDocB] ∧
    (fetchDocs true (FetchOutcome.response wRes) wState).page = 1 ∧
    (fetchDocs true (FetchOutcome.response wRes) wState).selected = none ∧
    ((fetchDocs true (FetchOutcome.response wRes) wState).hasMore = true ↔
      [wDocB] ≠ []) ∧
    (fetchDocs false (FetchOutcome.response wRes) wState).docs = [wDocA] ++ [wDocB] ∧
    (fetchDocs false (FetchOutcome.response wRes) wState).page = 3 + 1 ∧
    ((fetchDocs false (FetchOutcome.response wRes) wState).hasMore = true ↔
      [wDocB] ≠ []) :=
  fetchDocs_success wState wRes rfl

/-- Claim C4: a failed fetch — network error or non-success status —
leaves the loaded list, the page counter and the "more available" flag
unchanged and sets a non-empty error message; a subsequent successful
reset-and-load clears the error to empty and replaces the list. -/
theorem fetchDocs_failure (s : AppState) (reset : Bool) (msg : String)
    (res res2 : HttpResponse) (hres : res.ok = false) (hres2 : res2.ok = true) :
    ((fetchDocs reset (FetchOutcome.networkError msg) s).docs = s.docs ∧
     (fetchDocs reset (FetchOutcome.networkError msg) s).page = s.page ∧
     (fetchDocs reset (FetchOutcome.networkError msg) s).hasMore = s.hasMore ∧
     (fetchDocs reset (FetchOutcome.networkError msg) s).error ≠ "") ∧
    ((fetchDocs reset (FetchOutcome.response res) s).docs = s.docs ∧
     (fetchDocs reset (FetchOutcome.response res) s).page = s.page ∧
     (fetchDocs reset (FetchOutcome.response res) s).hasMore = s.hasMore ∧
     (fetchDocs reset (FetchOutcome.response res) s).error ≠ "") ∧
    ((fetchDocs true (FetchOutcome.response res2)
        (fetchDocs reset (FetchOutcome.response res) s)).error = "" ∧
     (fetchDocs true (FetchOutcome.response res2)
        (fetchDocs reset (FetchOutcome.response res) s)).docs = res2.results.getD []) := by
  have hmsg : (if msg = "" then "Unknown error" else msg) ≠ "" := by
    by_cases hm : msg = "" <;> simp [hm]
  have hreq : ∀ n : Nat, ("Request failed: " ++ toString n) ≠ "" := by
    intro n heq
    have hdata := congrArg String.data heq
    simp [String.data_append] at hdata
  refine ⟨⟨?_, ?_, ?_, ?_⟩, ⟨?_, ?_, ?_, ?_⟩, ?_, ?_⟩ <;>
    simp [fetchDocs, hres, hres2, hmsg, hreq]

/-- Concrete instance of `fetchDocs_failure`: a failed load-more on a
state holding one document, followed by a successful search. -/
theorem fetchDocs_failure_witness :
    ((fetchDocs false (FetchOutcome.networkError "boom") wState).docs = [wDocA] ∧
     (fetchDocs false (FetchOutcome.networkError "boom") wState).page = 3 ∧
     (fetchDocs false (FetchOutcome.networkError "boom") wState).hasMore = false ∧
     (fetchDocs false (FetchOutcome.networkError "boom") wState).error ≠ "") ∧
    ((fetchDocs false (FetchOutcome.response ⟨false, 500, none⟩) wState).docs = [wDocA] ∧
     (fetchDocs false (FetchOutcome.response ⟨false, 500, none⟩) wState).page = 3 ∧
     (fetchDocs false (FetchOutcome.response ⟨false, 500, none⟩) wState).hasMore = false ∧
     (fetchDocs false (FetchOutcome.response ⟨false, 500, none⟩) wState).error ≠ "") ∧
    ((fetchDocs true (FetchOutcome.response wRes)
        (fetchDocs false (FetchOutcome.response ⟨false, 500, none⟩) wState)).error = "" ∧
     (fetchDocs true (FetchOutcome.response wRes)
        (fetchDocs false (FetchOutcome.response ⟨false, 500, none⟩) wState)).docs = [wDocB]) :=
  fetchDocs_failure wState false "boom" ⟨false, 500, none⟩ wRes rfl rfl

end RegExplorer

namespace RegExplorer

/-! ## C5: the Fetcher's error/result contract -/

/-- Claim C5, counterexample: on a success status, a response body
whose `results` field is present but of an unexpected shape — the
number 5, say, as in `{"results": 5}` — is NOT treated as an empty
result list: `data?.results ?? []` defaults only on a nullish value,
so the non-array value is adopted verbatim (later breaking the render
or the append spread instead of being tolerated). -/
theorem fetcher_shape_counterexample :
    fetchResultJson ⟨true, 200, ResultsField.nonArray⟩
        = Except.ok ItemsValue.nonArray ∧
    ItemsValue.nonArray ≠ ItemsValue.arr [] :=
  ⟨rfl, by decide⟩

/-- Claim C5 (amended): the Fetcher fails — with an error carrying the
HTTP status code — exactly when the response status is non-success; on
a success status a nullish `results` field (absent, or `null`) is
treated as an empty result list, not as an error, and an array is
returned as-is; but a present non-nullish `results` value of any other
shape is adopted verbatim rather than treated as an empty result
list. -/
theorem fetchResultJson_spec (res : HttpResponseJson) :
    ((∃ c, fetchResultJson res = Except.error c) ↔ res.ok = false) ∧
    (∀ c, fetchResultJson res = Except.error c → c = res.status) ∧
    (res.ok = true → res.results = ResultsField.nullish →
      fetchResultJson res = Except.ok (ItemsValue.arr [])) ∧
    (res.ok = true → ∀ xs, res.results = ResultsField.arr xs →
      fetchResultJson res = Except.ok (ItemsValue.arr xs)) ∧
    (res.ok = true → res.results = ResultsField.nonArray →
      fetchResultJson res = Except.ok ItemsValue.nonArray) := by
  cases hok : res.ok with
  | false =>
      have hval : fetchResultJson res = Except.error res.status := by
        simp [fetchResultJson, hok]
      refine ⟨⟨fun _ => rfl, fun _ => ⟨res.status, hval⟩⟩, ?_,
        fun h => Bool.noConfusion h, fun h => Bool.noConfusion h,
        fun h => Bool.noConfusion h⟩
      intro c hc
      rw [hval] at hc
      cases hc
      rfl
  | true =>
      have hval : fetchResultJson res = Except.ok (extractItems res.results) := by
        simp [fetchResultJson, hok]
      refine ⟨⟨?_, fun h => Bool.noConfusion h⟩, ?_, ?_, ?_, ?_⟩
      · rintro ⟨c, hc⟩
        rw [hval] at hc
        cases hc
      · intro c hc
        rw [hval] at hc
        cases hc
      · intro _ hr
        rw [hval, hr]
        rfl
      · intro _ xs hr
        rw [hval, hr]
        rfl
      · intro _ hr
        rw [hval, hr]
        rfl

/-- Concrete instance of `fetchResultJson_spec`: a success status with
`results` absent is an empty page, not an error. -/
theorem fetchResultJson_spec_witness :
    fetchResultJson ⟨true, 200, ResultsField.nullish⟩
        = Except.ok (ItemsValue.arr []) :=
  (fetchResultJson_spec ⟨true, 200, ResultsField.nullish⟩).2.2.1 rfl rfl

/-! ## C6: the derived filter options -/

/-- Claim C6: both option lists are duplicate-free and sorted; the
type options are exactly the distinct non-empty `documentType` values,
and the agency options exactly the distinct agency names occurring
across the loaded documents' agency arrays. -/
theorem options_spec (docs : List Doc) :
    (agencyOptions docs).Nodup ∧ List.Sorted (· ≤ ·) (agencyOptions docs) ∧
    (∀ x, x ∈ agencyOptions docs ↔ ∃ d ∈ docs, x ∈ d.agencies.map Agency.name) ∧
    (typeOptions docs).Nodup ∧ List.Sorted (· ≤ ·) (typeOptions docs) ∧
    (∀ x, x ∈ typeOptions docs ↔ x ≠ "" ∧ ∃ d ∈ docs, d.document_type = x) := by
  refine ⟨?_, ?_, ?_, ?_, ?_, ?_⟩
  · exact (List.perm_insertionSort _ _).symm.nodup (nodup_dedupFirst _)
  · exact List.sorted_insertionSort _ _
  · intro x
    rw [agencyOptions, (List.perm_insertionSort _ _).mem_iff, mem_dedupFirst]
    simp [List.mem_flatMap]
  · exact (List.perm_insertionSort _ _).symm.nodup (nodup_dedupFirst _)
  · exact List.sorted_insertionSort _ _
  · intro x
    rw [typeOptions, (List.perm_insertionSort _ _).mem_iff, mem_dedupFirst]
    simp only [List.mem_filter, List.mem_map, bne_iff_ne]
    constructor
    · rintro ⟨⟨d, hd, rfl⟩, hne⟩
      exact ⟨hne, d, hd, rfl⟩
    · rintro ⟨hne, d, hd, rfl⟩
      exact ⟨⟨d, hd, rfl⟩, hne⟩

/-! ## C7: bookmark toggling -/

/-- Claim C7: toggling the same identifier twice returns the bookmark
set to its original content, as a set of ids. -/
theorem toggleBookmark_involutive (l : List String) (n x : String) :
    x ∈ toggleBookmark n (toggleBookmark n l) ↔ x ∈ l := by
  unfold toggleBookmark
  by_cases h : l.contains n
  · have hn : n ∈ l := by simpa using h
    simp only [h, if_true]
    have h2 : (l.filter (fun m => m != n)).contains n = false := by
      simp [List.mem_filter]
    simp only [h2, Bool.false_eq_true, if_false, List.mem_append, List.mem_filter,
      List.mem_singleton, bne_iff_ne]
    by_cases hx : x = n <;> simp [hx, hn]
  · have hn : n ∉ l := by simpa using h
    simp only [h, Bool.false_eq_true, if_false]
    have h2 : (l ++ [n]).contains n = true := by simp
    simp only [h2, if_true, List.filter_append, List.mem_filter, List.mem_append,
      bne_iff_ne]
    by_cases hx : x = n <;> simp [hx, hn]

/-! ## C8: bookmark persistence -/

/-- Claim C8, counterexample: a stored value that is readable and
parses as valid JSON, but is not an array of bookmark ids (for
instance the stored string `"5"`), is adopted verbatim by
load-at-startup rather than replaced by the empty set. -/
theorem bookmark_malformed_counterexample :
    loadBookmarks (StoredRaw.parsed JsonValue.jother) = JsonValue.jother ∧
    JsonValue.jother ≠ JsonValue.jarr [] :=
  ⟨rfl, by decide⟩

/-- Claim C8 (amended): writing a bookmark set and loading it back
reproduces the same list of ids; an absent (or falsy) stored value and
a stored value on which `JSON.parse` throws both yield the empty set;
but any successfully parsed JSON value — of whatever shape — is
adopted verbatim. -/
theorem bookmark_roundtrip_spec (xs : List String) :
    loadBookmarks (saveBookmarks xs) = JsonValue.jarr xs ∧
    loadBookmarks StoredRaw.missing = JsonValue.jarr [] ∧
    loadBookmarks StoredRaw.unparseable = JsonValue.jarr [] ∧
    (∀ v, loadBookmarks (StoredRaw.parsed v) = v) :=
  ⟨rfl, rfl, rfl, fun _ => rfl⟩

/-! ## C9: the request URL -/

/-- Claim C9: the request parameters contain exactly `per_page="20"`,
`order="newest"`, `page=<target page>`, and a `conditions[term]`
parameter carrying the trimmed keyword present if and only if the
keyword is non-empty after trimming. -/
theorem buildUrl_spec (q : String) (p : Nat) :
    ("per_page", "20") ∈ buildUrlParams q p ∧
    ("order", "newest") ∈ buildUrlParams q p ∧
    ("page", toString p) ∈ buildUrlParams q p ∧
    ((∃ v, ("conditions[term]", v) ∈ buildUrlParams q p) ↔ jsTrim q ≠ "") ∧
    (∀ v, ("conditions[term]", v) ∈ buildUrlParams q p → v = jsTrim q) ∧
    (∀ kv ∈ buildUrlParams q p,
      kv.1 = "per_page" ∨ kv.1 = "order" ∨ kv.1 = "page" ∨ kv.1 = "conditions[term]") := by
  by_cases h : jsTrim q = "" <;> simp [buildUrlParams, h]

/-- Concrete instance of `buildUrl_spec`: a whitespace-only keyword
omits the search-term parameter entirely. -/
theorem buildUrl_spec_witness :
    ("per_page", "20") ∈ buildUrlParams "  " 4 ∧
    ¬ (∃ v, ("conditions[term]", v) ∈ buildUrlParams "  " 4) :=
  ⟨(buildUrl_spec "  " 4).1,
    fun hex => absurd ((buildUrl_spec "  " 4).2.2.2.1.mp hex) (by decide)⟩

/-! ## C10: load-more uses the current keyword -/

/-- Claim C10: load-next-page builds its request from the keyword
field as it stands at the moment of the call — after an unsubmitted
keyword edit, the next page of the NEW keyword's result set is
requested and appended to the documents loaded under the old
keyword. -/
theorem loadNextPage_current_q (s : AppState) (k : String)
    (server : List (String × String) → List Doc) :
    (loadNextPage server (setQ k s)).docs
        = s.docs ++ server (buildUrlParams k (s.page + 1)) ∧
    loadNextPageParams (setQ k s) = buildUrlParams k (s.page + 1) ∧
    (loadNextPage server (setQ k s)).page = s.page + 1 := by
  simp [loadNextPage, fetchDocs, setQ, loadNextPageParams]

end RegExplorer
